import Mathlib

/-!
Verification development for the docstring-to-Markdown pipeline of `npdoc_to_md`.

Python strings are modelled as lists of characters (`Str`). The modules
`npdoc_to_md.sections`, `npdoc_to_md.examples_labeller`, `npdoc_to_md.parsers`,
`npdoc_to_md.config`, `npdoc_to_md.placeholder` and `npdoc_to_md.core` are
embedded below. The current `npdoc_to_md.helpers` module (class `Patterns`,
functions `previous_current_next` and `unique`) is absent from the sources
(only a historical version exists), so those few helpers are modelled from the
specification; each such definition is marked `Modelled from the spec:`.
External collaborators (numpydoc parsing, object resolution/introspection via
`pydoc`/`dir`, JSON parsing of placeholders) are passed as parameters.
-/

/-- A Python string: a list of characters. -/
abbrev Str := List Char

/-- ASCII whitespace characters recognised by Python's `str.strip`. -/
def isPySpace (c : Char) : Bool :=
  c = ' ' || c = '\t' || c = '\n' || c = '\r' || c = '\x0b' || c = '\x0c'

/-- Drop trailing characters satisfying `p` (the tail end of Python `strip`/`rstrip`). -/
def dropTrailing (p : Char → Bool) (s : Str) : Str :=
  (s.reverse.dropWhile p).reverse

/-- Python `str.strip()`. -/
def pyStrip (s : Str) : Str := dropTrailing isPySpace (s.dropWhile isPySpace)

/-- Python `str.rstrip()`. -/
def pyRstrip (s : Str) : Str := dropTrailing isPySpace s

/-- Python `s.lstrip(c)` for a one-character argument. -/
def pyLstripChar (c : Char) (s : Str) : Str := s.dropWhile (· = c)

/-- Python `s.rstrip(c)` for a one-character argument. -/
def pyRstripChar (c : Char) (s : Str) : Str := dropTrailing (· = c) s

/-- Python slice `l[a:b]` for `0 ≤ a ≤ b`. -/
def pySlice (l : List α) (a b : Nat) : List α := (l.drop a).take (b - a)

/-- Helper for `previous_current_next`, carrying the previous element. -/
def pcnAux (prev : Option α) : List α → List (Option α × α × Option α)
  | [] => []
  | [x] => [(prev, x, none)]
  | x :: y :: rest => (prev, x, some y) :: pcnAux (some x) (y :: rest)

/-- Modelled from the spec: the helper `previous_current_next` of the missing
`npdoc_to_md.helpers` module. It iterates a list, yielding every element
together with its predecessor and successor (`none` at the borders), as used by
`sections.py` and `examples_labeller.py`. -/
def previous_current_next (l : List α) : List (Option α × α × Option α) :=
  pcnAux none l

/-- Modelled from the spec: the console-input pattern `Patterns.console_py` of
the missing helpers module — a line is a console input line when it starts with
the primary prompt marker or the continuation prompt marker. -/
def console_py (s : Str) : Bool :=
  ">>>".toList.isPrefixOf s || "...".toList.isPrefixOf s

/-- `ExampleLineType` of `examples_labeller.py`. -/
inductive ExampleLineType
  | INPUT
  | OUTPUT
  | TEXT
  | OUTPUT_LANG
deriving DecidableEq

/-- `ExampleLine` of `examples_labeller.py`. -/
structure ExampleLine where
  global_index : Nat
  line : Str
  line_type : ExampleLineType
deriving DecidableEq

/-- One iteration of the labelling loop in `ExamplesLabeller.labels`: the label
of the current line given the previous line together with its label. -/
def labelStep (prev : Option (Str × ExampleLineType)) (cur : Str) : ExampleLineType :=
  let is_input := console_py cur
  if is_input then .INPUT
  else
    let follows_input := match prev with | some (_, .INPUT) => true | _ => false
    let follows_output := match prev with | some (_, .OUTPUT) => true | _ => false
    let is_empty_line := (pyStrip cur).isEmpty
    let previous_line_empty := match prev with
      | some (p, _) => (pyStrip p).isEmpty
      | none => false
    if (follows_input && !is_input && !is_empty_line) ||
       (follows_output && !is_empty_line && !previous_line_empty) then .OUTPUT
    else
      let stripped := pyStrip cur
      let is_lang := "\x7b\x7b".toList.isPrefixOf stripped &&
        "\x7d\x7d".toList.isSuffixOf stripped
      if is_lang then .OUTPUT_LANG else .TEXT

/-- The labelling loop of `ExamplesLabeller.labels`, carrying the running index
and the previous line with its label. -/
def labelsAux (ix : Nat) (prev : Option (Str × ExampleLineType)) :
    List Str → List ExampleLine
  | [] => []
  | cur :: rest =>
    let t := labelStep prev cur
    ⟨ix, cur, t⟩ :: labelsAux (ix + 1) (some (cur, t)) rest

/-- `ExamplesLabeller.labels`. -/
def labels (lines : List Str) : List ExampleLine :=
  if lines.length = 0 then [] else labelsAux 0 none lines

/-- `ExampleBlock` of `examples_labeller.py`. -/
structure ExampleBlock where
  example_lines : List ExampleLine
deriving DecidableEq

/-- Condition under which index `ix` starts a new block in
`ExamplesLabeller.example_blocks` (the loop appends the indices in increasing
order, which is the filter below over all indices). -/
def blockStartCond (ls : List ExampleLine) (ix : Nat) : Bool :=
  if ix = 0 then true
  else
    match ls[ix - 1]?, ls[ix]? with
    | some previous, some example_line =>
      (previous.line_type = ExampleLineType.INPUT &&
        (pyStrip example_line.line).isEmpty) ||
      (previous.line_type = ExampleLineType.OUTPUT &&
        (example_line.line_type = ExampleLineType.INPUT ||
         example_line.line_type = ExampleLineType.TEXT))
    | _, _ => false

/-- The `blocks_start` list of `ExamplesLabeller.example_blocks`. -/
def blocks_start (ls : List ExampleLine) : List Nat :=
  (List.range ls.length).filter (blockStartCond ls)

/-- The block cut at one start index in `ExamplesLabeller.example_blocks`:
`labels[start_ix:next_ix]` when there is a next start, else `labels[start_ix:]`. -/
def blockOf (ls : List ExampleLine) (start_ix : Nat) : Option Nat → ExampleBlock
  | some next_ix => ⟨pySlice ls start_ix next_ix⟩
  | none => ⟨ls.drop start_ix⟩

/-- The final loop of `ExamplesLabeller.example_blocks`: cut the labelled lines
at the block-start indices. -/
def blocksFromStarts (ls : List ExampleLine) (starts : List Nat) : List ExampleBlock :=
  (previous_current_next starts).map fun x => blockOf ls x.2.1 x.2.2

/-- `ExamplesLabeller.example_blocks`. -/
def example_blocks (lines : List Str) : List ExampleBlock :=
  blocksFromStarts (labels lines) (blocks_start (labels lines))

example : labels [">>> 1+1".toList, "2".toList, "".toList, "txt".toList] =
    [⟨0, ">>> 1+1".toList, .INPUT⟩, ⟨1, "2".toList, .OUTPUT⟩,
     ⟨2, "".toList, .TEXT⟩, ⟨3, "txt".toList, .TEXT⟩] := by decide

example : blocks_start (labels [">>> 1+1".toList, "2".toList, "".toList, "txt".toList]) =
    [0, 2] := by decide

/-! ## Sections (`npdoc_to_md.sections`) -/

/-- `SectionsFinder.standard_section_names`: the standard numpydoc taxonomy in
its fixed order. The list comes from the external `numpydoc` collaborator
(`NumpyDocString.sections` without the `index` entry); its contents and order
are witnessed by the doctest of `SectionsFinder` in `sections.py`. -/
def standard_section_names : List Str :=
  ["Signature", "Summary", "Extended Summary", "Parameters", "Returns", "Yields",
   "Receives", "Raises", "Warns", "Other Parameters", "Attributes", "Methods",
   "See Also", "Notes", "Warnings", "References", "Examples"].map (·.toList)

/-- `SectionsFinder.sections_without_headers`. -/
def sections_without_headers : List Str :=
  ["Signature", "Summary", "Extended Summary"].map (·.toList)

/-- The character walk of `SectionsFinder._find_from_lines`: compare the header
line and the underline character by character, tracking whether the visible
header text has been reached and accumulating the section-name characters. -/
def findWalk (header_reached : Bool) (acc : Str) : List (Char × Char) → Option Str
  | [] => none
  | (pc, c) :: rest =>
    let hr := header_reached || !(pc = ' ')
    if !hr then
      if !(pc = ' ' && c = ' ') then none
      else if rest.isEmpty then some acc
      else findWalk hr acc rest
    else
      let acc := acc ++ [pc]
      if !(c = '-' || c = '=') then none
      else if rest.isEmpty then some acc
      else findWalk hr acc rest

/-- `SectionsFinder._find_from_lines`. -/
def find_from_lines (line : Str) (next_line : Option Str) : Option Str :=
  match next_line with
  | none => none
  | some nl =>
    if (pyStrip line).isEmpty || (pyStrip nl).isEmpty then none
    else
      let l := pyRstrip line
      let n := pyRstrip nl
      match pyStrip l with
      | [] => none
      | c0 :: _ =>
        if !c0.isUpper then none
        else if l.length ≠ n.length then none
        else findWalk false [] (l.zip n)

/-- Insertion into a Python dict modelled as an association list: an existing
key keeps its position and gets the new value, a new key is appended. -/
def upsert {β : Type} (k : Str) (v : β) : List (Str × β) → List (Str × β)
  | [] => [(k, v)]
  | (k2, v2) :: rest => if k2 = k then (k2, v) :: rest else (k2, v2) :: upsert k v rest

/-- `SectionsFinder.all_visible_sections_start_indices`. -/
def all_visible_sections_start_indices (lines : List Str) : List (Str × Nat) :=
  if lines.length = 0 then []
  else
    ((previous_current_next lines).enum).foldl
      (fun sections x =>
        match x with
        | (ix, _, line, nxt) =>
          match find_from_lines line nxt with
          | some section_name => upsert section_name ix sections
          | none => sections)
      []

/-- `SectionsFinder.all_visible_sections_ranges` (a Python `range(a, b)` is the
pair `(a, b)`). -/
def all_visible_sections_ranges (lines : List Str) : List (Str × (Nat × Nat)) :=
  let sections_indices := all_visible_sections_start_indices lines
  if sections_indices.isEmpty then []
  else
    let vals := sections_indices.map Prod.snd
    let shifted := vals.tail ++ [lines.length]
    let ranges := List.zipWith (fun a b => (a + 2, b - 1)) vals shifted
    List.zip (sections_indices.map Prod.fst) ranges

/-- `SectionsFinder.all_visible_sections`. -/
def all_visible_sections (lines : List Str) : List Str :=
  (all_visible_sections_ranges lines).map Prod.fst

/-- `SectionsFinder.custom_sections`. -/
def custom_sections (lines : List Str) : List (Str × List Str) :=
  (all_visible_sections_ranges lines).filterMap fun x =>
    match x with
    | (section_name, (a, b)) =>
      if standard_section_names.contains section_name then none
      else some (section_name, pySlice lines a (b + 1))

/-- The part of a list strictly after the first occurrence of `k`
(Python `l[l.index(k) + 1:]`, for `k ∈ l`). -/
def after_first (k : Str) (l : List Str) : List Str :=
  (l.dropWhile (fun x => !(x = k))).tail

/-- The local helper `get_consecutive_custom_section` of
`SectionsFinder.all_sections`. -/
def get_consecutive_custom_section (visible custom_names : List Str)
    (section_name : Str) : Option Str :=
  if visible.contains section_name then
    (after_first section_name visible).find? fun k => custom_names.contains k
  else none

/-- One iteration of the main loop of `SectionsFinder.all_sections`: emit the
standard section, then splice in the next custom section when there is one. -/
def all_sections_step {α : Type} (visible custom_names : List Str)
    (custom : List (Str × List Str)) (acc : List (Str × (α ⊕ List Str)))
    (kv : Str × α) : List (Str × (α ⊕ List Str)) :=
  match kv with
  | (k, v) =>
    let acc := upsert k (Sum.inl v) acc
    match get_consecutive_custom_section visible custom_names k with
    | some c =>
      upsert c (Sum.inr (((custom.find? fun p => p.1 = c).map Prod.snd).getD [])) acc
    | none => acc

/-- `SectionsFinder.all_sections`. Values are `Sum.inl` for standard sections
(content produced by the external numpydoc collaborator `std_content`) and
`Sum.inr` for custom sections (their lines). In the only-custom branch the
Python `dict(zip(keys, values))` is a plain zip because the keys are distinct
(custom names are dict keys and are never standard names). -/
def all_sections {α : Type} (std_content : Str → α) (lines : List Str) :
    List (Str × (α ⊕ List Str)) :=
  let standard := standard_section_names.map fun k => (k, std_content k)
  let custom := custom_sections lines
  let custom_names := custom.map Prod.fst
  let visible := all_visible_sections lines
  let only_custom := visible.all fun v => custom_names.contains v
  if only_custom then
    let default_keys := standard.map Prod.fst
    let default_values := standard.map Prod.snd
    let ix_custom := default_keys.indexOf ("Extended Summary".toList) + 1
    let keys := default_keys.take ix_custom ++ custom_names ++ default_keys.drop ix_custom
    let values := (default_values.take ix_custom).map Sum.inl ++
      (custom.map Prod.snd).map Sum.inr ++ (default_values.drop ix_custom).map Sum.inl
    List.zip keys values
  else
    standard.foldl (all_sections_step visible custom_names custom) []

/-- The docstring of the `SectionsFinder` doctest, cleaned. -/
def doctestLines : List Str :=
  ["A dummy function", "", "Parameters", "----------", "a", "    Some number", "",
   "My custom section", "-----------------", "It works!"].map (·.toList)

example : all_visible_sections_start_indices doctestLines =
    [("Parameters".toList, 2), ("My custom section".toList, 7)] := by decide

example : all_visible_sections_ranges doctestLines =
    [("Parameters".toList, (4, 6)), ("My custom section".toList, (9, 9))] := by decide

example : custom_sections doctestLines =
    [("My custom section".toList, ["It works!".toList])] := by decide

example : (all_sections (fun _ => ()) doctestLines).map Prod.fst =
    (["Signature", "Summary", "Extended Summary", "Parameters", "My custom section",
      "Returns", "Yields", "Receives", "Raises", "Warns", "Other Parameters",
      "Attributes", "Methods", "See Also", "Notes", "Warnings", "References",
      "Examples"].map (·.toList)) := by decide

/-! ## Configuration (`npdoc_to_md.config`) -/

/-- `npdoc_to_md.config.default_language_examples`. -/
def default_language_examples : Str := "python".toList

/-- `SpecialExampleOutputLanguages.RAW.value`. -/
def RAW : Str := "raw".toList

/-- `SpecialExampleOutputLanguages.MARKDOWN_RENDERED.value`. -/
def MARKDOWN_RENDERED : Str := "markdown_rendered".toList

/-- `MemberFlag.DUNDER.value`. -/
def DUNDER : Str := "dunder$".toList

/-- `MemberFlag.PRIVATE.value`. -/
def PRIVATE : Str := "private$".toList

/-- `MemberFlag.PUBLIC.value`. -/
def PUBLIC : Str := "public$".toList

/-- `MembersParser.allowed_flags`. -/
def allowed_flags : List Str := [DUNDER, PRIVATE, PUBLIC]

/-- The `Config` dataclass of `config.py` (typed view, after validation). -/
structure Config where
  alias_ : Option Str
  examples_md_lang : Str
  remove_doctest_blanklines : Bool
  remove_doctest_skip : Bool
  md_section_level : Int
  ignore_custom_section_warning : Bool
  members : List Str
deriving DecidableEq

/-- The default `Config()`. -/
def defaultConfig : Config :=
  ⟨none, default_language_examples, false, false, 3, false, []⟩

/-- A dynamically typed Python value, as a caller may pass it to `Config`. -/
inductive PyVal
  | pynone
  | str (s : Str)
  | int (n : Int)
  | bool (b : Bool)
  | list (xs : List PyVal)

/-- `v is None`. -/
def is_none : PyVal → Bool
  | .pynone => true
  | _ => false

instance exceptDecEq {e a : Type} [DecidableEq e] [DecidableEq a] :
    DecidableEq (Except e a)
  | .ok x, .ok y =>
    if h : x = y then .isTrue (by rw [h]) else .isFalse (by intro hc; cases hc; exact h rfl)
  | .ok _, .error _ => .isFalse (by intro hc; cases hc)
  | .error _, .ok _ => .isFalse (by intro hc; cases hc)
  | .error x, .error y =>
    if h : x = y then .isTrue (by rw [h]) else .isFalse (by intro hc; cases hc; exact h rfl)

/-- `isinstance(v, str)`. -/
def is_str : PyVal → Bool
  | .str _ => true
  | _ => false

/-- `isinstance(v, bool)`. -/
def is_bool : PyVal → Bool
  | .bool _ => true
  | _ => false

/-- `isinstance(v, int)` — in Python `bool` is a subclass of `int`. -/
def is_int : PyVal → Bool
  | .int _ => true
  | .bool _ => true
  | _ => false

/-- `isinstance(v, list)`. -/
def is_list : PyVal → Bool
  | .list _ => true
  | _ => false

/-- Extract the string of a validated `PyVal`. -/
def getStr : PyVal → Str
  | .str s => s
  | _ => []

/-- Extract an optional string of a validated `PyVal`. -/
def getOptStr : PyVal → Option Str
  | .str s => some s
  | _ => none

/-- Extract the boolean of a validated `PyVal`. -/
def getBool : PyVal → Bool
  | .bool b => b
  | _ => false

/-- Extract the integer of a validated `PyVal` (Python `True == 1`). -/
def getInt : PyVal → Int
  | .int n => n
  | .bool b => if b then 1 else 0
  | _ => 0

/-- Extract the string list of a validated `PyVal`. -/
def getStrList : PyVal → List Str
  | .list xs => xs.map getStr
  | _ => []

/-- The exception kinds of the library (`npdoc_to_md.exceptions`, plus the
`TypeError`/`ValueError` raised by `Config.__post_init__`, `MembersParser` and
`Placeholder`). -/
inductive RenderError
  | non_existent_object (ns : Str)
  | signature_not_found
  | non_existent_member (name : Str)
  | members_conflicts (names : List Str)
  | invalid_members_flag (flag : Str)
  | type_error
  | value_error
  | placeholder_error
deriving DecidableEq

/-- `Config.__post_init__`: validation of a dynamically typed `Config` call.
It checks only the types of the fields (alias: `str` or `None`; members: a
`list` of `str`; the remaining fields against their annotations) and otherwise
accepts every value. -/
def config_post_init (alias_ examples_md_lang remove_doctest_blanklines
    remove_doctest_skip md_section_level ignore_custom_section_warning
    members : PyVal) : Except RenderError Config :=
  if !(is_str alias_ || is_none alias_) then .error .type_error
  else if !(is_list members) then .error .type_error
  else if (getStrList members).length ≠
      (match members with | .list xs => xs.length | _ => 0) ||
      (match members with | .list xs => xs.any (fun v => !(is_str v)) | _ => false) then
    .error .type_error
  else if !(is_str examples_md_lang) then .error .type_error
  else if !(is_bool remove_doctest_blanklines) then .error .type_error
  else if !(is_bool remove_doctest_skip) then .error .type_error
  else if !(is_int md_section_level) then .error .type_error
  else if !(is_bool ignore_custom_section_warning) then .error .type_error
  else
    .ok ⟨getOptStr alias_, getStr examples_md_lang, getBool remove_doctest_blanklines,
      getBool remove_doctest_skip, getInt md_section_level,
      getBool ignore_custom_section_warning, getStrList members⟩

/-! ## Members parsing (`npdoc_to_md.parsers.MembersParser`) -/

/-- Helper for `unique`, carrying the names already seen. -/
def uniqueAux (seen : List Str) : List Str → List Str
  | [] => []
  | x :: rest =>
    if seen.contains x then uniqueAux seen rest
    else x :: uniqueAux (seen ++ [x]) rest

/-- Modelled from the spec: the helper `unique` of the missing helpers module —
de-duplication preserving first-seen order. -/
def unique (l : List Str) : List Str := uniqueAux [] l

/-- `MembersParser._parse_flag`. -/
def parse_flag (all_members : List Str) (flag : Str) : Except RenderError (List Str) :=
  if flag = DUNDER then
    .ok (all_members.filter fun v => "__".toList.isPrefixOf v)
  else if flag = PRIVATE then
    .ok (all_members.filter fun v => "_".toList.isPrefixOf v && !("__".toList.isPrefixOf v))
  else if flag = PUBLIC then
    .ok (all_members.filter fun v => !("_".toList.isPrefixOf v))
  else .error (.invalid_members_flag flag)

/-- `MembersParser._parse_member_to_include`. -/
def parse_member_to_include (all_members : List Str) (value : Str) :
    Except RenderError Str :=
  let value := if "+".toList.isPrefixOf value then value.drop 1 else value
  if all_members.contains value then .ok value
  else .error (.non_existent_member value)

/-- The main loop of `MembersParser.__post_init__`, building the candidate,
exclusion and inclusion lists in order. -/
def parseMembersLoop (all_members : List Str) (candidates exclusions inclusions : List Str) :
    List Str → Except RenderError (List Str × List Str × List Str)
  | [] => .ok (candidates, exclusions, inclusions)
  | m :: rest =>
    if allowed_flags.contains m then
      match parse_flag all_members m with
      | .error e => .error e
      | .ok fl => parseMembersLoop all_members (candidates ++ fl) exclusions inclusions rest
    else if "-".toList.isPrefixOf m then
      parseMembersLoop all_members candidates (exclusions ++ [m.drop 1]) inclusions rest
    else
      match parse_member_to_include all_members m with
      | .error e => .error e
      | .ok parsed =>
        parseMembersLoop all_members (candidates ++ [parsed]) exclusions
          (inclusions ++ [parsed]) rest

/-- `MembersParser.__post_init__` / its attribute `parsed_members`.
`all_members` stands for `dir(obj)` (external introspection). The Python
conflict set `set(exclusions) & set(inclusions)` is modelled as the de-duplicated
list of conflicting inclusions. -/
def parsed_members (all_members : List Str) (members : List Str) :
    Except RenderError (List Str) :=
  let members := members.map pyStrip
  if members.any (fun m => m.isEmpty) then .error .value_error
  else
    match parseMembersLoop all_members [] [] [] members with
    | .error e => .error e
    | .ok (candidates, exclusions, inclusions) =>
      let conflicts := unique (inclusions.filter fun i => exclusions.contains i)
      if !conflicts.isEmpty then .error (.members_conflicts conflicts)
      else .ok ((unique candidates).filter fun c => !(exclusions.contains c))

example : parsed_members
    (["__init__", "_private_method1", "_private_method2", "public_method1",
      "public_method2"].map (·.toList))
    (["public$", "-public_method1", "private$"].map (·.toList)) =
    .ok (["public_method2", "_private_method1", "_private_method2"].map (·.toList)) := by
  decide

example : parsed_members (["foo"].map (·.toList)) (["+foo", "-foo"].map (·.toList)) =
    .error (.members_conflicts ["foo".toList]) := by decide

/-! ## Example rendering (`npdoc_to_md.parsers`) -/

/-- `ExampleBlock.output_lang`: the first language-directive line of the block,
with leading `{` and trailing `}` characters stripped, then whitespace-stripped. -/
def block_output_lang (b : ExampleBlock) : Option Str :=
  ((b.example_lines.find? fun exl => exl.line_type = ExampleLineType.OUTPUT_LANG).map
    fun exl => pyStrip (pyRstripChar '\x7d' (pyLstripChar '\x7b' exl.line)))

/-- `ExampleBlock._get_ix`: the indices of the block's lines of a given type. -/
def get_ix_list (b : ExampleBlock) (t : ExampleLineType) : List Nat :=
  b.example_lines.filterMap fun exl =>
    if exl.line_type = t then some exl.global_index else none

/-- `ExampleBlock.ix_first_input`. -/
def ix_first_input (b : ExampleBlock) : Option Nat :=
  (get_ix_list b ExampleLineType.INPUT).min?

/-- `ExampleBlock.ix_last_input`. -/
def ix_last_input (b : ExampleBlock) : Option Nat :=
  (get_ix_list b ExampleLineType.INPUT).max?

/-- `ExampleBlock.ix_first_output`. -/
def ix_first_output (b : ExampleBlock) : Option Nat :=
  (get_ix_list b ExampleLineType.OUTPUT).min?

/-- `ExampleBlock.ix_last_output`. -/
def ix_last_output (b : ExampleBlock) : Option Nat :=
  (get_ix_list b ExampleLineType.OUTPUT).max?

/-- `ExampleBlockHandler` of `parsers.py`. -/
structure ExampleBlockHandler where
  block : ExampleBlock
  config : Config

/-- `ExampleBlockHandler.output_lang`: the block's own directive overrides the
configured default language; the reserved value `raw` becomes the empty
language tag. -/
def handler_output_lang (h : ExampleBlockHandler) : Str :=
  let lang := match block_output_lang h.block with
    | none => h.config.examples_md_lang
    | some l => l
  if lang = RAW then [] else lang

/-- Modelled from the spec: the `Patterns.blankline` substitution of the missing
helpers module — an output line equal (up to surrounding whitespace) to the
doctest blank-line marker is replaced by the empty string. -/
def blankline_sub (s : Str) : Str :=
  if pyStrip s = "<BLANKLINE>".toList then [] else s

/-- Modelled from the spec: the `Patterns.doctest_skip` substitution of the
missing helpers module — removes a trailing doctest-skip marker. -/
def doctest_skip_sub (s : Str) : Str :=
  if " #doctest: +SKIP".toList.isSuffixOf s then
    s.take (s.length - " #doctest: +SKIP".toList.length)
  else s

/-- Modelled from the spec: the `Patterns.console_py` substitution of the
missing helpers module — strips the leading console prompt marker (and one
following space) from an input line. -/
def console_py_sub (s : Str) : Str :=
  if ">>> ".toList.isPrefixOf s then s.drop 4
  else if ">>>".toList.isPrefixOf s then s.drop 3
  else if "... ".toList.isPrefixOf s then s.drop 4
  else if "...".toList.isPrefixOf s then s.drop 3
  else s

/-- The opening line of a fenced code block. -/
def fenceOpen (lang : Str) : Str := "```".toList ++ lang

/-- The closing line of a fenced code block. -/
def fenceClose : Str := "```".toList

/-- `ExampleBlockHandler._text_line_to_md`. -/
def text_line_to_md (example_line : ExampleLine) : List Str := [example_line.line]

/-- `ExampleBlockHandler._output_lang_line_to_md`. -/
def output_lang_line_to_md (_example_line : ExampleLine) : List Str := []

/-- `ExampleBlockHandler._output_line_to_md`. -/
def output_line_to_md (h : ExampleBlockHandler) (example_line : ExampleLine) : List Str :=
  let start_lines :=
    if some example_line.global_index = ix_first_output h.block then
      if handler_output_lang h ≠ MARKDOWN_RENDERED then [fenceOpen (handler_output_lang h)]
      else []
    else []
  let line :=
    if h.config.remove_doctest_blanklines then blankline_sub example_line.line
    else example_line.line
  let end_lines :=
    if some example_line.global_index = ix_last_output h.block then
      if handler_output_lang h ≠ MARKDOWN_RENDERED then [fenceClose] else []
    else []
  start_lines ++ [line] ++ end_lines

/-- `ExampleBlockHandler._input_line_to_md`. -/
def input_line_to_md (h : ExampleBlockHandler) (example_line : ExampleLine) : List Str :=
  let start_lines :=
    if some example_line.global_index = ix_first_input h.block then [fenceOpen "python".toList]
    else []
  let line :=
    if h.config.remove_doctest_skip then doctest_skip_sub example_line.line
    else example_line.line
  let line := console_py_sub line
  let end_lines :=
    if some example_line.global_index = ix_last_input h.block then [fenceClose] else []
  start_lines ++ [line] ++ end_lines

/-- `ExampleBlockHandler.markdown_lines`. -/
def markdown_lines (h : ExampleBlockHandler) : List Str :=
  h.block.example_lines.flatMap fun example_line =>
    match example_line.line_type with
    | .OUTPUT_LANG => output_lang_line_to_md example_line
    | .TEXT => text_line_to_md example_line
    | .INPUT => input_line_to_md h example_line
    | .OUTPUT => output_line_to_md h example_line

/-- `ExampleParser.to_md_lines`: the Markdown rendering of a whole Examples
section. -/
def example_section_to_md_lines (lines : List Str) (config : Config) : List Str :=
  (example_blocks lines).flatMap fun block => markdown_lines ⟨block, config⟩

example : example_section_to_md_lines
    (["* first example", "\x7b\x7bpython\x7d\x7d", ">>> print(123)", "123", "",
      "* second example", ">>> print(1)", "1"].map (·.toList)) defaultConfig =
    (["* first example", "```python", "print(123)", "```", "```python", "123", "```",
      "", "* second example", "```python", "print(1)", "```", "```python", "1",
      "```"].map (·.toList)) := by decide

/-! ## Placeholders and core rendering (`npdoc_to_md.placeholder`, `npdoc_to_md.core`) -/

/-- `Placeholder` of `placeholder.py` (the parsed JSON body is summarised by the
resulting object namespace and `Config`). -/
structure Placeholder where
  line : Str
  obj_namespace : Str
  config : Config
deriving DecidableEq

/-- The delimiter test of `Placeholder.search`: the stripped line starts with
the opening and ends with the closing double-brace delimiter. -/
def placeholder_delimited (t : Str) : Bool :=
  "\x7b\x7b".toList.isPrefixOf t && "\x7d\x7d".toList.isSuffixOf t

/-- `Placeholder.search`, with the JSON parsing and validation of the
placeholder body (`Placeholder.__post_init__`) abstracted as `parse`
(an external collaborator); its errors propagate. -/
def search (parse : Str → Except RenderError (Str × Config)) (line : Str) :
    Except RenderError (Option Placeholder) :=
  let t := pyStrip line
  if placeholder_delimited t then
    match parse t with
    | .ok (o, c) => .ok (some ⟨t, o, c⟩)
    | .error e => .error e
  else .ok none

/-- `Placeholder.search_no_err`: like `search` but an exception is logged and
`None` is returned. -/
def search_no_err (parse : Str → Except RenderError (Str × Config)) (line : Str) :
    Option Placeholder :=
  let t := pyStrip line
  if placeholder_delimited t then
    match parse t with
    | .ok (o, c) => some ⟨t, o, c⟩
    | .error _ => none
  else none

/-- The configuration used for a member render in `parse_and_render`: the
`members` key is dropped (back to its default `[]`) and the alias, when
present, is suffixed with the member name. -/
def member_config (config : Config) (member : Str) : Config :=
  ⟨config.alias_.map (fun a => a ++ ".".toList ++ member), config.examples_md_lang,
    config.remove_doctest_blanklines, config.remove_doctest_skip,
    config.md_section_level, config.ignore_custom_section_warning, []⟩

/-- `npdoc_to_md.parsers.parse_and_render`. The rendering of one object's
docstring by `ParserEngine.to_md_string` is the external-collaborator parameter
`engine` (it performs object resolution and introspection); `dir_of` stands for
`dir` of the resolved object. -/
def parse_and_render (engine : Str → Config → Except RenderError Str)
    (dir_of : Str → List Str) (obj_namespace : Str) (config : Config) :
    Except RenderError Str :=
  match engine obj_namespace config with
  | .error e => .error e
  | .ok result =>
    if config.members.isEmpty then .ok result
    else
      match parsed_members (dir_of obj_namespace) config.members with
      | .error e => .error e
      | .ok pm =>
        match pm.mapM (fun member =>
            engine (obj_namespace ++ ".".toList ++ member) (member_config config member)) with
        | .error e => .error e
        | .ok rest => .ok (List.intercalate "\n\n".toList (result :: rest))

/-- `npdoc_to_md.core._render_placeholder`. -/
def render_placeholder (engine : Str → Config → Except RenderError Str)
    (dir_of : Str → List Str) (p : Placeholder) : Except RenderError Str :=
  parse_and_render engine dir_of p.obj_namespace p.config

/-- `npdoc_to_md.core._render_placeholder_no_err`: any exception is logged and
the placeholder's (stripped) line is returned instead. -/
def render_placeholder_no_err (engine : Str → Config → Except RenderError Str)
    (dir_of : Str → List Str) (p : Placeholder) : Str :=
  match render_placeholder engine dir_of p with
  | .ok s => s
  | .error _ => p.line

/-- One iteration of the loop of `render_string` when `ignore_errors=True`. -/
def render_line_ignore (parse : Str → Except RenderError (Str × Config))
    (engine : Str → Config → Except RenderError Str) (dir_of : Str → List Str)
    (line : Str) : Str :=
  match search_no_err parse line with
  | some p => render_placeholder_no_err engine dir_of p
  | none => line

/-- The line loop of `npdoc_to_md.core.render_string` (the function splits its
input into lines, maps this loop over them and joins with a newline). -/
def render_lines (parse : Str → Except RenderError (Str × Config))
    (engine : Str → Config → Except RenderError Str) (dir_of : Str → List Str)
    (ignore_errors : Bool) (lines : List Str) : Except RenderError (List Str) :=
  if ignore_errors then .ok (lines.map (render_line_ignore parse engine dir_of))
  else
    lines.mapM fun line =>
      match search parse line with
      | .error e => .error e
      | .ok (some p) => render_placeholder engine dir_of p
      | .ok none => .ok line

/-! ## Claim C3: example output-language override -/

/-- C3, counterexample: in a block whose language directive line is
`{{markdown}}`, the rendered output IS wrapped in a code fence tagged
`markdown` — the reserved unfenced value is `markdown_rendered`, not
`markdown`, so the claim is false as stated. -/
theorem c3_counterexample :
    example_section_to_md_lines
      (["\x7b\x7bmarkdown\x7d\x7d", ">>> 1+1", "2"].map (·.toList)) defaultConfig =
    (["```python", "1+1", "```", "```markdown", "2", "```"].map (·.toList)) := by
  decide

/-- C3, amended: a block whose resolved language directive is the reserved
value `markdown_rendered` has every one of its output lines emitted without
any code fence (raw Markdown), regardless of the globally configured default
example-output language in the configuration. -/
theorem c3_markdown_rendered_unfenced (block : ExampleBlock) (config : Config)
    (el : ExampleLine) (hlang : block_output_lang block = some MARKDOWN_RENDERED)
    (hty : el.line_type = ExampleLineType.OUTPUT) :
    output_line_to_md ⟨block, config⟩ el =
      [if config.remove_doctest_blanklines then blankline_sub el.line else el.line] := by
  have h1 : handler_output_lang ⟨block, config⟩ = MARKDOWN_RENDERED := by
    unfold handler_output_lang
    rw [hlang]
    simp only []
    rw [if_neg (by decide : ¬(MARKDOWN_RENDERED = RAW))]
  unfold output_line_to_md
  rw [h1]
  simp

/-- C3, witness for the amended theorem at a concrete block. -/
theorem c3_witness :
    output_line_to_md
      ⟨⟨[⟨0, "\x7b\x7bmarkdown_rendered\x7d\x7d".toList, .OUTPUT_LANG⟩,
         ⟨1, ">>> 1+1".toList, .INPUT⟩, ⟨2, "2".toList, .OUTPUT⟩]⟩, defaultConfig⟩
      ⟨2, "2".toList, .OUTPUT⟩ = ["2".toList] := by
  have := c3_markdown_rendered_unfenced
    ⟨[⟨0, "\x7b\x7bmarkdown_rendered\x7d\x7d".toList, .OUTPUT_LANG⟩,
      ⟨1, ">>> 1+1".toList, .INPUT⟩, ⟨2, "2".toList, .OUTPUT⟩]⟩ defaultConfig
    ⟨2, "2".toList, .OUTPUT⟩ (by decide) rfl
  simpa using this

/-! ## Claim C4: exclusion entries and existence checks -/

/-- C4, counterexample: excluding a member `bar` that does not exist on the
target object does not signal a `member does not exist` error — member
selection succeeds. -/
theorem c4_counterexample :
    parsed_members ["foo".toList] ["-bar".toList] = .ok [] := by decide

/-- C4, amended: only inclusion entries are existence-checked. An exclusion
entry `-name` is recorded without any check against the target object's
attribute set: member selection succeeds for any attribute set, the exclusion
simply having no effect when the name is absent. -/
theorem c4_exclusion_not_checked (all_members : List Str) (name : Str)
    (hstrip : pyStrip ('-' :: name) = '-' :: name) :
    parsed_members all_members [('-' :: name)] = .ok [] := by
  have hflag : allowed_flags.contains ('-' :: name) = false := by
    simp [allowed_flags, DUNDER, PRIVATE, PUBLIC]
  have hdash : "-".toList.isPrefixOf ('-' :: name) = true := by
    simp [List.isPrefixOf]
  have hloop : parseMembersLoop all_members [] [] [] [('-' :: name)] =
      .ok ([], [name], []) := by
    unfold parseMembersLoop
    rw [hflag, hdash]
    simp [parseMembersLoop]
  unfold parsed_members
  simp only [List.map_cons, List.map_nil, hstrip, List.any_cons, List.any_nil,
    List.isEmpty_cons, Bool.or_false, Bool.false_eq_true, if_false]
  rw [hloop]
  simp [unique, uniqueAux]

/-- C4, witness for the amended theorem at a concrete input. -/
theorem c4_witness :
    pyStrip ('-' :: "bar".toList) = '-' :: "bar".toList ∧
    parsed_members ["foo".toList, "baz".toList] [('-' :: "bar".toList)] = .ok [] :=
  ⟨by decide, c4_exclusion_not_checked (["foo", "baz"].map (·.toList)) "bar".toList (by decide)⟩

/-! ## Claim C8: Config construction invariants -/

/-- C8, counterexample: `Config` construction succeeds with a Markdown heading
depth of `0` and with an empty string among the member-selection entries — the
claimed invariants (depth ≥ 1, non-empty member entries) are not enforced and
no error is raised. -/
theorem c8_counterexample :
    config_post_init .pynone (.str default_language_examples) (.bool false)
      (.bool false) (.int 0) (.bool false) (.list [.str []]) =
    .ok ⟨none, default_language_examples, false, false, 0, false, [[]]⟩ ∧
    ¬((0 : Int) ≥ 1) := by
  exact ⟨by decide, by decide⟩

/-- Extracting the strings of a wrapped string list is the identity. -/
theorem getStr_str_map (ms : List Str) : ms.map (getStr ∘ PyVal.str) = ms := by
  induction ms with
  | nil => rfl
  | cons a t ih => simp [getStr, ih]

/-- C8, amended: `Config.__post_init__` performs type validation only. Every
integer heading depth (including `0` and negative values) and every list of
strings (including empty strings) is accepted; a value of the wrong type for
the heading depth is rejected with a `TypeError`. The depth ≥ 1 and non-empty
member entry invariants are not construction invariants (empty member entries
are only rejected later by `MembersParser`). -/
theorem c8_type_validation_only (level : Int) (ms : List Str) :
    (config_post_init .pynone (.str default_language_examples) (.bool false)
        (.bool false) (.int level) (.bool false) (.list (ms.map .str)) =
      .ok ⟨none, default_language_examples, false, false, level, false, ms⟩) ∧
    (∀ v : PyVal, is_int v = false →
      config_post_init .pynone (.str default_language_examples) (.bool false)
        (.bool false) v (.bool false) (.list (ms.map .str)) =
      .error .type_error) := by
  constructor
  · unfold config_post_init
    simp [is_str, is_none, is_list, is_bool, is_int, getOptStr, getStr, getBool,
      getInt, getStrList, getStr_str_map, List.any_map, Function.comp]
  · intro v hv
    unfold config_post_init
    simp [is_str, is_none, is_list, is_bool, hv, getStrList, getStr_str_map,
      List.any_map, Function.comp]

/-- C8, witness for the amended theorem at concrete inputs. -/
theorem c8_witness :
    (config_post_init .pynone (.str default_language_examples) (.bool false)
        (.bool false) (.int 0) (.bool false) (.list ([([] : Str)].map .str)) =
      .ok ⟨none, default_language_examples, false, false, 0, false, [[]]⟩) ∧
    (config_post_init .pynone (.str default_language_examples) (.bool false)
        (.bool false) (.str "3".toList) (.bool false) (.list ([([] : Str)].map .str)) =
      .error .type_error) :=
  ⟨(c8_type_validation_only 0 [[]]).1,
   (c8_type_validation_only 0 [[]]).2 (.str "3".toList) (by decide)⟩

/-! ## Claim C2: member-selection errors under error suppression -/

/-- C2, counterexample: a placeholder whose member selection conflicts
(`+foo` and `-foo`) does NOT raise when `ignore_errors=True` — the line is
returned unchanged and no error reaches the caller; the same input propagates
a members-conflict error only when `ignore_errors=False`. -/
theorem c2_counterexample :
    (render_lines
        (fun _ => .ok ("obj".toList,
          ⟨none, default_language_examples, false, false, 3, false,
            ["+foo".toList, "-foo".toList]⟩))
        (fun _ _ => .ok "rendered".toList) (fun _ => ["foo".toList]) true
        ["\x7b\x7bx\x7d\x7d".toList] =
      .ok ["\x7b\x7bx\x7d\x7d".toList]) ∧
    (render_lines
        (fun _ => .ok ("obj".toList,
          ⟨none, default_language_examples, false, false, 3, false,
            ["+foo".toList, "-foo".toList]⟩))
        (fun _ _ => .ok "rendered".toList) (fun _ => ["foo".toList]) false
        ["\x7b\x7bx\x7d\x7d".toList] =
      .error (.members_conflicts ["foo".toList])) := by
  exact ⟨by decide, by decide⟩

/-- C2, amended: member-selection errors are suppressible like every other
rendering error. With `ignore_errors=True`, string rendering never propagates
any error to the caller (the failing placeholder line is substituted back);
with `ignore_errors=False`, a member-selection error raised by `MembersParser`
propagates unchanged through `parse_and_render`. -/
theorem c2_member_errors_suppressible :
    (∀ (parse : Str → Except RenderError (Str × Config))
        (engine : Str → Config → Except RenderError Str) (dir_of : Str → List Str)
        (lines : List Str),
      ∃ out, render_lines parse engine dir_of true lines = .ok out) ∧
    (∀ (engine : Str → Config → Except RenderError Str) (dir_of : Str → List Str)
        (ns : Str) (config : Config) (r : Str) (e : RenderError),
      engine ns config = .ok r → config.members.isEmpty = false →
      parsed_members (dir_of ns) config.members = .error e →
      parse_and_render engine dir_of ns config = .error e) := by
  constructor
  · intro parse engine dir_of lines
    exact ⟨_, rfl⟩
  · intro engine dir_of ns config r e he hm hp
    unfold parse_and_render
    rw [he, hm, hp]
    simp

/-- C2, witness for the amended theorem at concrete inputs. -/
theorem c2_witness :
    (∃ out, render_lines (fun _ => .error .placeholder_error)
        (fun _ _ => .error .type_error) (fun _ => []) true ["x".toList] = .ok out) ∧
    (parse_and_render (fun _ _ => .ok []) (fun _ => ["foo".toList]) "o".toList
        ⟨none, default_language_examples, false, false, 3, false,
          ["+foo".toList, "-foo".toList]⟩ =
      .error (.members_conflicts ["foo".toList])) :=
  ⟨c2_member_errors_suppressible.1 _ _ _ _,
   c2_member_errors_suppressible.2 _ _ _ _ [] _ rfl rfl (by decide)⟩

/-! ## Claim C9: frame property of suppressed rendering -/

/-- C9, counterexample: with `ignore_errors=True`, a placeholder line with
leading whitespace whose rendering fails is NOT left unchanged — the
whitespace-stripped placeholder text is substituted instead. -/
theorem c9_counterexample :
    (render_lines (fun _ => .ok ("monkey".toList, defaultConfig))
        (fun _ _ => .error (.non_existent_object "monkey".toList)) (fun _ => []) true
        ["  \x7b\x7bm\x7d\x7d".toList] =
      .ok ["\x7b\x7bm\x7d\x7d".toList]) ∧
    ("\x7b\x7bm\x7d\x7d".toList : Str) ≠ "  \x7b\x7bm\x7d\x7d".toList := by
  exact ⟨by decide, by decide⟩

/-- C9, amended: with `ignore_errors=True` every non-placeholder line appears
unchanged character-for-character, and a placeholder line whose rendering
fails is replaced by its whitespace-stripped placeholder text (identical to
the original line up to surrounding whitespace); rendering processes lines
independently and returns one output line per input line. -/
theorem c9_suppressed_render_frame :
    (∀ (parse : Str → Except RenderError (Str × Config))
        (engine : Str → Config → Except RenderError Str) (dir_of : Str → List Str)
        (line : Str), placeholder_delimited (pyStrip line) = false →
      render_line_ignore parse engine dir_of line = line) ∧
    (∀ (parse : Str → Except RenderError (Str × Config))
        (engine : Str → Config → Except RenderError Str) (dir_of : Str → List Str)
        (line : Str) (p : Placeholder) (e : RenderError),
      search_no_err parse line = some p →
      render_placeholder engine dir_of p = .error e →
      render_line_ignore parse engine dir_of line = pyStrip line) ∧
    (∀ (parse : Str → Except RenderError (Str × Config))
        (engine : Str → Config → Except RenderError Str) (dir_of : Str → List Str)
        (lines : List Str),
      render_lines parse engine dir_of true lines =
        .ok (lines.map (render_line_ignore parse engine dir_of))) := by
  refine ⟨?_, ?_, ?_⟩
  · intro parse engine dir_of line h
    unfold render_line_ignore search_no_err
    simp [h]
  · intro parse engine dir_of line p e hs hr
    unfold render_line_ignore
    rw [hs]
    show render_placeholder_no_err engine dir_of p = pyStrip line
    unfold render_placeholder_no_err
    rw [hr]
    unfold search_no_err at hs
    by_cases hd : placeholder_delimited (pyStrip line)
    · simp only [hd, if_true] at hs
      cases hp : parse (pyStrip line) with
      | ok oc =>
        rw [hp] at hs
        cases hs
        rfl
      | error _ =>
        rw [hp] at hs
        cases hs
    · simp [hd] at hs
  · intro parse engine dir_of lines
    rfl

/-- C9, witness for the amended theorem at concrete inputs. -/
theorem c9_witness :
    (render_line_ignore (fun _ => .error .placeholder_error)
        (fun _ _ => .error .type_error) (fun _ => []) "hello".toList =
      "hello".toList) ∧
    (render_line_ignore (fun _ => .ok ("monkey".toList, defaultConfig))
        (fun _ _ => .error (.non_existent_object "monkey".toList)) (fun _ => [])
        "  \x7b\x7bm\x7d\x7d  ".toList =
      pyStrip "  \x7b\x7bm\x7d\x7d  ".toList) ∧
    (render_lines (fun _ => .error .placeholder_error)
        (fun _ _ => .error .type_error) (fun _ => []) true ["a".toList] =
      .ok (["a".toList].map (render_line_ignore (fun _ => .error .placeholder_error)
        (fun _ _ => .error .type_error) (fun _ => [])))) :=
  ⟨c9_suppressed_render_frame.1 _ _ _ _ (by decide),
   c9_suppressed_render_frame.2.1 _ _ _ _
     ⟨"\x7b\x7bm\x7d\x7d".toList, "monkey".toList, defaultConfig⟩
     (.non_existent_object "monkey".toList) (by decide) (by decide),
   c9_suppressed_render_frame.2.2 _ _ _ _⟩

/-! ## Claim C5: section spans -/

/-- `getElem?` of a `zipWith` at an index where both lists are defined. -/
theorem zipWith_getElem? {α β γ : Type} (f : α → β → γ) (as : List α) (bs : List β)
    (i : Nat) (a : α) (b : β) (ha : as[i]? = some a) (hb : bs[i]? = some b) :
    (List.zipWith f as bs)[i]? = some (f a b) := by
  induction as generalizing bs i with
  | nil => simp at ha
  | cons x xs ih =>
    cases bs with
    | nil => simp at hb
    | cons y ys =>
      cases i with
      | zero =>
        simp only [List.getElem?_cons_zero, Option.some.injEq] at ha hb
        simp [List.zipWith, ha, hb]
      | succ n =>
        simp only [List.getElem?_cons_succ] at ha hb
        simpa [List.zipWith] using ih ys n ha hb

/-- C5, counterexample: for the docstring `["Sec", "---", "a", "b"]` the single
detected section gets the range `(2, 3)`, whose exclusive end `3` is the total
number of lines minus one — the span does NOT extend to the end of the text
(line index 3, the last line, is excluded). -/
theorem c5_counterexample :
    all_visible_sections_ranges (["Sec", "---", "a", "b"].map (·.toList)) =
      [("Sec".toList, (2, 3))] ∧
    (["Sec", "---", "a", "b"].map (·.toList)).length = 4 := by
  exact ⟨by decide, by decide⟩

/-- Core computation behind `all_visible_sections_ranges`: the entry at
position `i` pairs the section name with `(start + 2, next - 1)`, where `next`
is the following section's start, or the total line count for the last one. -/
theorem ranges_core (L : Nat) (si : List (Str × Nat)) (i : Nat) (nm : Str) (st : Nat)
    (h : si[i]? = some (nm, st)) :
    ((si.map Prod.fst).zip (List.zipWith (fun a b => (a + 2, b - 1)) (si.map Prod.snd)
      ((si.map Prod.snd).tail ++ [L])))[i]? =
    some (nm, (st + 2, (match si[i + 1]? with | some p => p.2 | none => L) - 1)) := by
  have hlt : i < si.length := (List.getElem?_eq_some.mp h).1
  have hfst : (si.map Prod.fst)[i]? = some nm := by
    rw [List.getElem?_map, h]; rfl
  have hsnd : (si.map Prod.snd)[i]? = some st := by
    rw [List.getElem?_map, h]; rfl
  have hlen : (si.map Prod.snd).length = si.length := List.length_map ..
  have htail : (si.map Prod.snd).tail = (si.map Prod.snd).drop 1 := by
    rw [List.drop_one]
  cases hnext : si[i + 1]? with
  | some p =>
    have hlt2 : i + 1 < si.length := (List.getElem?_eq_some.mp hnext).1
    have hshift : ((si.map Prod.snd).tail ++ [L])[i]? = some p.2 := by
      rw [htail, List.getElem?_append]
      rw [if_pos (by simp only [List.length_drop, hlen]; omega)]
      rw [List.getElem?_drop, List.getElem?_map, show 1 + i = i + 1 from by omega, hnext]
      rfl
    rw [List.zip_eq_zipWith]
    exact zipWith_getElem? Prod.mk _ _ i nm (st + 2, p.2 - 1) hfst
      (zipWith_getElem? _ _ _ i st p.2 hsnd hshift)
  | none =>
    have hge : si.length ≤ i + 1 := List.getElem?_eq_none_iff.mp hnext
    have hshift : ((si.map Prod.snd).tail ++ [L])[i]? = some L := by
      rw [htail, List.getElem?_append]
      rw [if_neg (by simp only [List.length_drop, hlen]; omega)]
      rw [show i - ((si.map Prod.snd).drop 1).length = 0 from by
        simp only [List.length_drop, hlen]; omega]
      rfl
    rw [List.zip_eq_zipWith]
    exact zipWith_getElem? Prod.mk _ _ i nm (st + 2, L - 1) hfst
      (zipWith_getElem? _ _ _ i st L hsnd hshift)

/-- C5, amended: each detected section's span starts at its start index plus 2
and ends exclusively at the next detected section's start minus 1; for the last
detected section the text length plays the role of the "next start", so its
exclusive end is the number of lines minus 1 (one short of the end of the
text; consumers such as `custom_sections` re-add the final line via `stop+1`). -/
theorem c5_ranges_spec (lines : List Str) (i : Nat) (nm : Str) (st : Nat)
    (h : (all_visible_sections_start_indices lines)[i]? = some (nm, st)) :
    (all_visible_sections_ranges lines)[i]? = some (nm, (st + 2,
      (match (all_visible_sections_start_indices lines)[i + 1]? with
       | some p => p.2
       | none => lines.length) - 1)) := by
  have hne : (all_visible_sections_start_indices lines).isEmpty = false := by
    cases hc : all_visible_sections_start_indices lines with
    | nil => rw [hc] at h; simp at h
    | cons a l => rfl
  simp only [all_visible_sections_ranges, hne, Bool.false_eq_true, if_false]
  exact ranges_core lines.length _ i nm st h

/-- C5, witness for the amended theorem on the doctest docstring. -/
theorem c5_witness :
    (all_visible_sections_ranges doctestLines)[0]? =
      some ("Parameters".toList, (4, 6)) := by
  have h := c5_ranges_spec doctestLines 0 "Parameters".toList 2 (by decide)
  exact h.trans (by decide)

/-! ## Claim C6: blocks partition the labelled lines -/

/-- Mapping a function that ignores the predecessor component over
`pcnAux` does not depend on the initial predecessor. -/
theorem pcnAux_map_eq {α β : Type} (f : Option α × α × Option α → β)
    (hf : ∀ a b c d, f (a, c, d) = f (b, c, d)) :
    ∀ (l : List α) (p q : Option α), (pcnAux p l).map f = (pcnAux q l).map f
  | [], _, _ => rfl
  | [x], p, q => by
    simp only [pcnAux, List.map_cons, List.map_nil, List.cons.injEq, and_true]
    exact hf p q x none
  | x :: y :: rest, p, q => by
    simp only [pcnAux, List.map_cons, List.cons.injEq, and_true]
    exact hf p q x (some y)

/-- Concatenating the blocks cut at a strictly increasing list of start
indices yields the labelled lines from the first start on. -/
theorem blocks_flatten (ls : List ExampleLine) :
    ∀ (rest : List Nat) (s0 : Nat), (s0 :: rest).Pairwise (· < ·) →
      ((blocksFromStarts ls (s0 :: rest)).map ExampleBlock.example_lines).flatten =
        ls.drop s0 := by
  intro rest
  induction rest with
  | nil =>
    intro s0 _
    simp [blocksFromStarts, previous_current_next, pcnAux, blockOf]
  | cons s1 rest ih =>
    intro s0 hp
    have h01 : s0 < s1 := (List.pairwise_cons.mp hp).1 s1 (by simp)
    have hp1 : (s1 :: rest).Pairwise (· < ·) := (List.pairwise_cons.mp hp).2
    have hpcn : previous_current_next (s0 :: s1 :: rest) =
        (none, s0, some s1) :: pcnAux (some s0) (s1 :: rest) := rfl
    unfold blocksFromStarts
    rw [hpcn, List.map_cons, List.map_cons, List.flatten_cons, List.map_map]
    rw [pcnAux_map_eq _ (by intro a b c d; rfl) (s1 :: rest) (some s0) none]
    rw [← List.map_map]
    have ht := ih s1 hp1
    unfold blocksFromStarts at ht
    rw [show pcnAux none (s1 :: rest) = previous_current_next (s1 :: rest) from rfl, ht]
    show (ls.drop s0).take (s1 - s0) ++ ls.drop s1 = ls.drop s0
    rw [show ls.drop s1 = (ls.drop s0).drop (s1 - s0) from by
      rw [List.drop_drop]; congr 1; omega]
    exact List.take_append_drop _ _

/-- C6: the blocks returned by `ExamplesLabeller.example_blocks`, concatenated
in order, reproduce the full labelled line sequence exactly once each and in
the original order — every labelled line belongs to exactly one block. -/
theorem c6_blocks_partition (lines : List Str) :
    ((example_blocks lines).map ExampleBlock.example_lines).flatten = labels lines := by
  unfold example_blocks
  cases hL : labels lines with
  | nil => simp [blocks_start, blocksFromStarts, previous_current_next, pcnAux]
  | cons e es =>
    have hpw : (blocks_start (e :: es)).Pairwise (· < ·) :=
      (List.pairwise_lt_range _).sublist (List.filter_sublist _)
    obtain ⟨rest, hr⟩ : ∃ rest, blocks_start (e :: es) = 0 :: rest := by
      unfold blocks_start
      rw [show (e :: es).length = es.length + 1 from rfl, List.range_succ_eq_map,
        List.filter_cons]
      rw [show blockStartCond (e :: es) 0 = true from rfl]
      exact ⟨_, rfl⟩
    rw [hr] at hpw
    rw [hr]
    simpa using blocks_flatten (e :: es) rest 0 hpw

/-! ## Claims C7 and C10: the example line classifier -/

/-- The predecessor pair (line text and label) seen by the labelling loop when
it reaches position `i`, starting from predecessor `prev`. -/
def prevOf (prev : Option (Str × ExampleLineType)) :
    List Str → Nat → Option (Str × ExampleLineType)
  | _, 0 => prev
  | [], _ + 1 => none
  | c :: rest, i + 1 => prevOf (some (c, labelStep prev c)) rest i

/-- Element `i` of `labelsAux` is line `i` together with the label computed by
`labelStep` from the predecessor pair. -/
theorem labelsAux_getElem? :
    ∀ (ls : List Str) (ix : Nat) (prev : Option (Str × ExampleLineType)) (i : Nat),
      (labelsAux ix prev ls)[i]? =
        ls[i]?.map fun cur => ⟨ix + i, cur, labelStep (prevOf prev ls i) cur⟩ := by
  intro ls
  induction ls with
  | nil => intro ix prev i; simp [labelsAux]
  | cons c rest ih =>
    intro ix prev i
    cases i with
    | zero => simp [labelsAux, prevOf]
    | succ n =>
      simp only [labelsAux, List.getElem?_cons_succ, prevOf]
      rw [ih (ix + 1) (some (c, labelStep prev c)) n]
      cases rest[n]? <;> simp [prevOf, Nat.add_assoc, Nat.add_comm 1 n]

/-- The label assigned by `ExamplesLabeller.labels` to line `i` (`none` when
out of range). -/
def label_type_at (lines : List Str) (i : Nat) : Option ExampleLineType :=
  ((labels lines)[i]?).map ExampleLine.line_type

/-- `label_type_at` in terms of `labelStep` and `prevOf`. -/
theorem label_type_at_eq (lines : List Str) (i : Nat) :
    label_type_at lines i = lines[i]?.map fun cur => labelStep (prevOf none lines i) cur := by
  unfold label_type_at labels
  cases lines with
  | nil => simp
  | cons c rest =>
    rw [if_neg (by simp : ¬(c :: rest).length = 0)]
    rw [labelsAux_getElem?]
    simp only [Option.map_map]
    cases (c :: rest)[i]? <;> rfl

/-- Stepping `prevOf` forward: the predecessor pair at `i + 1` is line `i`
together with its computed label. -/
theorem prevOf_succ :
    ∀ (ls : List Str) (prev : Option (Str × ExampleLineType)) (i : Nat) (c : Str),
      ls[i]? = some c →
      prevOf prev ls (i + 1) = some (c, labelStep (prevOf prev ls i) c) := by
  intro ls
  induction ls with
  | nil => intro prev i c h; simp at h
  | cons x rest ih =>
    intro prev i c h
    cases i with
    | zero =>
      simp only [List.getElem?_cons_zero, Option.some.injEq] at h
      subst h
      simp [prevOf]
    | succ n =>
      simp only [List.getElem?_cons_succ] at h
      have h2 := ih (some (x, labelStep prev x)) n c h
      simp only [prevOf]
      exact h2

/-- `prevOf` is `none` past the end of the list. -/
theorem prevOf_none_of_lt :
    ∀ (ls : List Str) (prev : Option (Str × ExampleLineType)) (j : Nat),
      ls.length < j → prevOf prev ls j = none := by
  intro ls
  induction ls with
  | nil =>
    intro prev j h
    cases j with
    | zero => omega
    | succ n => simp [prevOf]
  | cons x rest ih =>
    intro prev j h
    cases j with
    | zero => simp at h
    | succ n =>
      simp only [prevOf]
      exact ih _ n (by simpa using h)

/-- A string strips to the empty string exactly when all of its characters are
whitespace. -/
theorem pyStrip_eq_nil_iff (s : Str) : pyStrip s = [] ↔ ∀ c ∈ s, isPySpace c := by
  unfold pyStrip dropTrailing
  constructor
  · intro h c hc
    have h1 : (s.dropWhile isPySpace).reverse.dropWhile isPySpace = [] := by
      rwa [List.reverse_eq_nil_iff] at h
    have h3 : ∀ c ∈ s.dropWhile isPySpace, isPySpace c := fun c hc =>
      (List.dropWhile_eq_nil_iff.mp h1) c (List.mem_reverse.mpr hc)
    have hsplit : s.takeWhile isPySpace ++ s.dropWhile isPySpace = s :=
      List.takeWhile_append_dropWhile ..
    rw [← hsplit] at hc
    rcases List.mem_append.mp hc with h4 | h4
    · exact List.mem_takeWhile_imp h4
    · exact h3 c h4
  · intro h
    have h1 : s.dropWhile isPySpace = [] :=
      List.dropWhile_eq_nil_iff.mpr fun x hx => h x hx
    simp [h1]

/-- A console-input line is never blank. -/
theorem console_py_nonblank (s : Str) (h : console_py s = true) :
    (pyStrip s).isEmpty = false := by
  cases s with
  | nil => simp [console_py, List.isPrefixOf] at h
  | cons c t =>
    have hc : c = '>' ∨ c = '.' := by
      unfold console_py at h
      rcases Bool.or_eq_true_iff.mp h with h1 | h1
      · left
        simp [List.isPrefixOf] at h1
        exact h1.1.symm
      · right
        simp [List.isPrefixOf] at h1
        exact h1.1.symm
    rw [List.isEmpty_eq_false]
    intro hnil
    have hsp := (pyStrip_eq_nil_iff (c :: t)).mp hnil c (by simp)
    rcases hc with hc | hc <;> subst hc <;> simp [isPySpace] at hsp

/-- `labelStep` yields `INPUT` exactly for lines matching the console-input
pattern. -/
theorem labelStep_eq_INPUT (prev : Option (Str × ExampleLineType)) (cur : Str) :
    labelStep prev cur = .INPUT ↔ console_py cur = true := by
  unfold labelStep
  cases hc : console_py cur with
  | false =>
    simp only [hc, Bool.false_eq_true, if_false]
    constructor
    · intro h
      split at h <;> [skip; split at h] <;> simp_all
    · intro h
      cases h
  | true => simp

/-- Necessary conditions for `labelStep` to yield `OUTPUT`: the current line is
not a console input, it is non-blank, and the predecessor exists and was
labelled `INPUT`, or was labelled `OUTPUT` and is itself non-blank. -/
theorem labelStep_eq_OUTPUT (prev : Option (Str × ExampleLineType)) (cur : Str)
    (h : labelStep prev cur = .OUTPUT) :
    console_py cur = false ∧ (pyStrip cur).isEmpty = false ∧
      ∃ p l, prev = some (p, l) ∧
        (l = .INPUT ∨ (l = .OUTPUT ∧ (pyStrip p).isEmpty = false)) := by
  unfold labelStep at h
  cases hc : console_py cur with
  | true => simp [hc] at h
  | false =>
    simp only [hc, Bool.false_eq_true, if_false] at h
    rcases prev with _ | ⟨p, l⟩
    · simp only [Bool.false_and, Bool.and_false, Bool.or_self, Bool.false_eq_true,
        if_false] at h
      split at h <;> simp_all
    · cases l with
      | INPUT =>
        by_cases he : pyStrip cur = []
        · simp [he] at h
        · exact ⟨rfl, by rw [List.isEmpty_eq_false]; exact he, p, .INPUT, rfl, Or.inl rfl⟩
      | OUTPUT =>
        by_cases he : pyStrip cur = []
        · simp [he] at h
        · by_cases hpe : pyStrip p = []
          · simp [he, hpe] at h
            split at h <;> simp_all
          · exact ⟨rfl, by rw [List.isEmpty_eq_false]; exact he, p, .OUTPUT, rfl,
              Or.inr ⟨rfl, by rw [List.isEmpty_eq_false]; exact hpe⟩⟩
      | TEXT =>
        simp only [Bool.false_and, Bool.and_false, Bool.or_self, Bool.false_eq_true,
          if_false] at h
        split at h <;> simp_all
      | OUTPUT_LANG =>
        simp only [Bool.false_and, Bool.and_false, Bool.or_self, Bool.false_eq_true,
          if_false] at h
        split at h <;> simp_all

/-- Sufficient condition: a non-blank, non-input line directly after an
`INPUT`-labelled line is labelled `OUTPUT`. -/
theorem labelStep_OUTPUT_of_INPUT (p cur : Str) (h1 : console_py cur = false)
    (h2 : (pyStrip cur).isEmpty = false) :
    labelStep (some (p, .INPUT)) cur = .OUTPUT := by
  unfold labelStep
  simp [h1, h2]

/-- Sufficient condition: a non-blank, non-input line directly after a
non-blank `OUTPUT`-labelled line is labelled `OUTPUT`. -/
theorem labelStep_OUTPUT_of_OUTPUT (p cur : Str) (h1 : console_py cur = false)
    (h2 : (pyStrip cur).isEmpty = false) (h3 : (pyStrip p).isEmpty = false) :
    labelStep (some (p, .OUTPUT)) cur = .OUTPUT := by
  unfold labelStep
  simp [h1, h2, h3]

/-- The invariant carried by the labelling loop about the predecessor pair:
an `INPUT` predecessor matches the console pattern, an `OUTPUT` predecessor is
non-blank. -/
def POK (o : Option (Str × ExampleLineType)) : Prop :=
  ∀ p l, o = some (p, l) →
    (l = ExampleLineType.INPUT → console_py p = true) ∧
    (l = ExampleLineType.OUTPUT → (pyStrip p).isEmpty = false)

/-- The empty predecessor satisfies the invariant. -/
theorem POK_none : POK none := fun _ _ h => by cases h

/-- A freshly labelled line satisfies the predecessor invariant. -/
theorem POK_step (prev : Option (Str × ExampleLineType)) (c : Str) :
    POK (some (c, labelStep prev c)) := by
  intro p l h
  cases h
  constructor
  · intro hI
    exact (labelStep_eq_INPUT prev c).mp hI
  · intro hO
    exact (labelStep_eq_OUTPUT prev c hO).2.1

/-- The predecessor pair computed by `prevOf` always satisfies the invariant. -/
theorem POK_prevOf : ∀ (ls : List Str) (prev : Option (Str × ExampleLineType)),
    POK prev → ∀ i, POK (prevOf prev ls i) := by
  intro ls
  induction ls with
  | nil =>
    intro prev hp i
    cases i with
    | zero => simpa only [prevOf] using hp
    | succ n => simp only [prevOf]; exact POK_none
  | cons c rest ih =>
    intro prev hp i
    cases i with
    | zero => simpa only [prevOf] using hp
    | succ n =>
      simp only [prevOf]
      exact ih _ (POK_step prev c) n

/-- Forward analysis of an `OUTPUT` label: the line exists and is non-blank,
it has a predecessor which is non-blank, and that predecessor is labelled
`INPUT` or `OUTPUT`. -/
theorem label_output_chain (lines : List Str) (j : Nat)
    (h : label_type_at lines j = some .OUTPUT) :
    1 ≤ j ∧ (∃ c, lines[j]? = some c ∧ (pyStrip c).isEmpty = false) ∧
      (∃ p, lines[j - 1]? = some p ∧ (pyStrip p).isEmpty = false ∧
        (label_type_at lines (j - 1) = some .INPUT ∨
         label_type_at lines (j - 1) = some .OUTPUT)) := by
  rw [label_type_at_eq] at h
  cases hc : lines[j]? with
  | none => rw [hc] at h; cases h
  | some cur =>
    rw [hc] at h
    have hstep : labelStep (prevOf none lines j) cur = .OUTPUT := Option.some.inj h
    obtain ⟨hcpy, hne, p, l, hprev, hl⟩ := labelStep_eq_OUTPUT _ _ hstep
    have hj : 1 ≤ j := by
      rcases j with _ | n
      · simp only [prevOf] at hprev; cases hprev
      · omega
    have hjlen : j < lines.length := (List.getElem?_eq_some.mp hc).1
    obtain ⟨c2, hc2⟩ : ∃ c2, lines[j - 1]? = some c2 :=
      ⟨_, List.getElem?_eq_getElem (by omega)⟩
    have hps := prevOf_succ lines none (j - 1) c2 hc2
    rw [show j - 1 + 1 = j from by omega] at hps
    rw [hps] at hprev
    have hpl := Option.some.inj hprev
    have hp1 : c2 = p := congrArg Prod.fst hpl
    have hl1 : labelStep (prevOf none lines (j - 1)) c2 = l := congrArg Prod.snd hpl
    have hlab : label_type_at lines (j - 1) = some l := by
      rw [label_type_at_eq, hc2]
      simp [hl1]
    have hpok := POK_prevOf lines none POK_none j p l
      (by rw [hps]; exact congrArg some hpl)
    refine ⟨hj, ⟨cur, ?_, ?_⟩, ⟨p, ?_, ?_, ?_⟩⟩
    · rfl
    · exact hne
    · rw [← hp1]; exact hc2
    · rcases hl with hIN | ⟨hOUT, hpne⟩
      · exact console_py_nonblank p (hpok.1 hIN)
      · exact hpne
    · rcases hl with hIN | ⟨hOUT, _⟩
      · left; rw [hlab, hIN]
      · right; rw [hlab, hOUT]

/-- C7: a line not matching the console-input pattern is labelled `OUTPUT` iff
its predecessor is labelled `INPUT` and it is non-blank, or its predecessor is
labelled `OUTPUT`, it is non-blank and the line before the predecessor is
non-blank — output runs are terminated by a single blank line. -/
theorem c7_output_classification (lines : List Str) (i : Nat) (s : Str)
    (hs : lines[i]? = some s) (hni : console_py s = false) :
    label_type_at lines i = some .OUTPUT ↔
      (1 ≤ i ∧ (pyStrip s).isEmpty = false ∧
        (label_type_at lines (i - 1) = some .INPUT ∨
          (label_type_at lines (i - 1) = some .OUTPUT ∧
            ∃ t, lines[i - 2]? = some t ∧ (pyStrip t).isEmpty = false))) := by
  constructor
  · intro h
    obtain ⟨hi, ⟨c, hc, hcne⟩, p, hp, hpne, hdisj⟩ := label_output_chain lines i h
    have hcs : c = s := by rw [hs] at hc; exact (Option.some.inj hc).symm
    refine ⟨hi, hcs ▸ hcne, ?_⟩
    rcases hdisj with hIN | hOUT
    · exact Or.inl hIN
    · refine Or.inr ⟨hOUT, ?_⟩
      obtain ⟨_, _, ⟨t, ht, htne, _⟩⟩ := label_output_chain lines (i - 1) hOUT
      exact ⟨t, by rw [show i - 1 - 1 = i - 2 from by omega] at ht; exact ht, htne⟩
  · rintro ⟨hi, hne, hcase⟩
    have hjlen : i < lines.length := (List.getElem?_eq_some.mp hs).1
    obtain ⟨c, hc⟩ : ∃ c, lines[i - 1]? = some c :=
      ⟨_, List.getElem?_eq_getElem (by omega)⟩
    have hps := prevOf_succ lines none (i - 1) c hc
    rw [show i - 1 + 1 = i from by omega] at hps
    have hlab : label_type_at lines (i - 1) =
        some (labelStep (prevOf none lines (i - 1)) c) := by
      rw [label_type_at_eq, hc]
      rfl
    rw [label_type_at_eq, hs]
    show some (labelStep (prevOf none lines i) s) = some .OUTPUT
    rcases hcase with hIN | ⟨hOUT, t, ht, htne⟩
    · have : labelStep (prevOf none lines (i - 1)) c = .INPUT := by
        rw [hlab] at hIN
        exact Option.some.inj hIN
      rw [hps, this]
      rw [labelStep_OUTPUT_of_INPUT c s hni hne]
    · have hstep : labelStep (prevOf none lines (i - 1)) c = .OUTPUT := by
        rw [hlab] at hOUT
        exact Option.some.inj hOUT
      have hpok := POK_prevOf lines none POK_none i c
        (labelStep (prevOf none lines (i - 1)) c) hps
      have hcne : (pyStrip c).isEmpty = false := hpok.2 hstep
      rw [hps, hstep]
      rw [labelStep_OUTPUT_of_OUTPUT c s hni hne hcne]

/-- C7, witness for the classification at a concrete input. -/
theorem c7_witness :
    label_type_at [">>> 1".toList, "2".toList] 1 = some .OUTPUT :=
  (c7_output_classification [">>> 1".toList, "2".toList] 1 "2".toList
    (by decide) (by decide)).mpr
    ⟨by decide, by decide, Or.inl (by decide)⟩

/-- Element `i` of `ExamplesLabeller.labels`. -/
theorem labels_getElem? (lines : List Str) (i : Nat) :
    (labels lines)[i]? =
      lines[i]?.map fun cur => ⟨i, cur, labelStep (prevOf none lines i) cur⟩ := by
  unfold labels
  cases lines with
  | nil => simp
  | cons c rest =>
    rw [if_neg (by simp : ¬(c :: rest).length = 0)]
    rw [labelsAux_getElem?]
    simp

/-- Every element of `ExamplesLabeller.labels` labelled `OUTPUT` has a
non-blank line text that does not match the console-input pattern. -/
theorem labels_output_nonblank (lines : List Str) (el : ExampleLine)
    (hmem : el ∈ labels lines) (hty : el.line_type = ExampleLineType.OUTPUT) :
    (pyStrip el.line).isEmpty = false ∧ console_py el.line = false := by
  obtain ⟨i, hi⟩ := List.getElem?_of_mem hmem
  rw [labels_getElem? lines i] at hi
  cases hc : lines[i]? with
  | none => rw [hc] at hi; cases hi
  | some cur =>
    rw [hc] at hi
    have hel : (⟨i, cur, labelStep (prevOf none lines i) cur⟩ : ExampleLine) = el :=
      Option.some.inj hi
    have hline : el.line = cur := by rw [← hel]
    have hstep : labelStep (prevOf none lines i) cur = ExampleLineType.OUTPUT := by
      have h2 := congrArg ExampleLine.line_type hel
      rw [hty] at h2
      exact h2
    obtain ⟨h1, h2, _⟩ := labelStep_eq_OUTPUT _ _ hstep
    rw [hline]
    exact ⟨h2, h1⟩

/-- Every example block's lines are labelled lines of the same Examples
section (blocks are contiguous slices of `labels`). -/
theorem example_blocks_sub (lines : List Str) (b : ExampleBlock)
    (hb : b ∈ example_blocks lines) (el : ExampleLine)
    (hel : el ∈ b.example_lines) : el ∈ labels lines := by
  unfold example_blocks blocksFromStarts at hb
  obtain ⟨x, _, hx⟩ := List.mem_map.mp hb
  have hsub : b.example_lines.Sublist (labels lines) := by
    rw [← hx]
    rcases x with ⟨pr, st, nx⟩
    cases nx with
    | none => exact List.drop_sublist ..
    | some n =>
      show (pySlice (labels lines) st n).Sublist (labels lines)
      unfold pySlice
      exact ((labels lines).drop st).take_sublist (n - st) |>.trans
        (List.drop_sublist ..)
  exact hsub.subset hel

/-- C10: every line labelled `OUTPUT` by the classifier is non-blank and does
not match the console-input pattern; consequently the lines of every example
block that are labelled `OUTPUT` are never blank. -/
theorem c10_output_lines_nonblank :
    (∀ (lines : List Str) (el : ExampleLine), el ∈ labels lines →
      el.line_type = ExampleLineType.OUTPUT →
      (pyStrip el.line).isEmpty = false ∧ console_py el.line = false) ∧
    (∀ (lines : List Str) (b : ExampleBlock) (el : ExampleLine),
      b ∈ example_blocks lines → el ∈ b.example_lines →
      el.line_type = ExampleLineType.OUTPUT →
      (pyStrip el.line).isEmpty = false ∧ console_py el.line = false) := by
  constructor
  · exact labels_output_nonblank
  · intro lines b el hb hel hty
    exact labels_output_nonblank lines el (example_blocks_sub lines b hb el hel) hty

/-- C10, witness at a concrete input. -/
theorem c10_witness :
    (pyStrip ("2".toList : Str)).isEmpty = false ∧
      console_py ("2".toList : Str) = false :=
  c10_output_lines_nonblank.2 [">>> 1".toList, "2".toList]
    ⟨[⟨0, ">>> 1".toList, .INPUT⟩, ⟨1, "2".toList, .OUTPUT⟩]⟩
    ⟨1, "2".toList, .OUTPUT⟩ (by decide) (by decide) rfl

/-! ## Claim C1: placement of custom sections -/

/-- C1, counterexample: a custom section `Functions` that textually precedes
the first visible standard section (`Parameters`) is detected and recognised
as custom, yet it is absent from `all_sections` entirely — in particular it is
not placed between `Extended Summary` and `Parameters`. -/
theorem c1_counterexample :
    ("Functions".toList ∈ all_visible_sections
      (["A dummy function", "", "Functions", "---------", "foo", "",
        "Parameters", "----------", "a"].map (·.toList))) ∧
    ("Functions".toList ∈ (custom_sections
      (["A dummy function", "", "Functions", "---------", "foo", "",
        "Parameters", "----------", "a"].map (·.toList))).map Prod.fst) ∧
    ¬("Functions".toList ∈ (all_sections (fun _ => ())
      (["A dummy function", "", "Functions", "---------", "foo", "",
        "Parameters", "----------", "a"].map (·.toList))).map Prod.fst) := by
  exact ⟨by decide, by decide, by decide⟩

/-- Keys after an `upsert`: the inserted key or an existing key. -/
theorem mem_upsert_keys {β : Type} (k : Str) (v : β) :
    ∀ (l : List (Str × β)) (x : Str), x ∈ (upsert k v l).map Prod.fst →
      x = k ∨ x ∈ l.map Prod.fst := by
  intro l
  induction l with
  | nil =>
    intro x h
    simp only [upsert, List.map_cons, List.map_nil, List.mem_cons,
      List.not_mem_nil, or_false] at h
    exact Or.inl h
  | cons kv rest ih =>
    intro x h
    rcases kv with ⟨k2, v2⟩
    unfold upsert at h
    by_cases he : k2 = k
    · rw [if_pos he] at h
      simp only [List.map_cons, List.mem_cons] at h
      rcases h with h1 | h1
      · exact Or.inr (by simp only [List.map_cons, List.mem_cons]; exact Or.inl h1)
      · exact Or.inr (by simp only [List.map_cons, List.mem_cons]; exact Or.inr h1)
    · rw [if_neg he] at h
      simp only [List.map_cons, List.mem_cons] at h
      rcases h with h1 | h1
      · exact Or.inr (by simp only [List.map_cons, List.mem_cons]; exact Or.inl h1)
      · rcases ih x h1 with h2 | h2
        · exact Or.inl h2
        · exact Or.inr (by simp only [List.map_cons, List.mem_cons]; exact Or.inr h2)

/-- The fold of `all_sections` never introduces a key that is neither one of
the standard keys being emitted nor a custom section spliced from the part of
the visible list following a standard key. -/
theorem foldl_keys_not_mem {α : Type} (visible custom_names : List Str)
    (custom : List (Str × List Str)) (c : Str) :
    ∀ (pairs : List (Str × α)) (acc : List (Str × (α ⊕ List Str))),
      (∀ kv ∈ pairs, kv.1 ≠ c ∧ ¬(c ∈ after_first kv.1 visible)) →
      ¬(c ∈ acc.map Prod.fst) →
      ¬(c ∈ (pairs.foldl (all_sections_step visible custom_names custom) acc).map
        Prod.fst) := by
  intro pairs
  induction pairs with
  | nil => intro acc _ hacc; simpa using hacc
  | cons kv rest ih =>
    intro acc h hacc
    simp only [List.foldl_cons]
    apply ih
    · intro kv2 h2
      exact h kv2 (List.mem_cons_of_mem _ h2)
    · obtain ⟨hne, haf⟩ := h kv (List.mem_cons_self ..)
      rcases kv with ⟨k, v⟩
      cases hg : get_consecutive_custom_section visible custom_names k with
      | none =>
        simp only [all_sections_step, hg]
        intro hmem
        rcases mem_upsert_keys k (Sum.inl v) acc c hmem with h1 | h1
        · exact hne h1.symm
        · exact hacc h1
      | some c2 =>
        have hc2 : c2 ∈ after_first k visible := by
          unfold get_consecutive_custom_section at hg
          split at hg
          · exact List.mem_of_find?_eq_some hg
          · cases hg
        simp only [all_sections_step, hg]
        intro hmem
        rcases mem_upsert_keys c2 _ _ c hmem with h1 | h1
        · exact haf (h1 ▸ hc2)
        · rcases mem_upsert_keys k (Sum.inl v) acc c h1 with h2 | h2
          · exact hne h2.symm
          · exact hacc h2

/-- C1, amended: when every visible section is custom, `all_sections` places
all custom sections immediately after the `Extended Summary` key (between the
first three standard keys and the remaining fourteen). Otherwise a custom
section is spliced in only when it follows some visible standard section in
textual order; a custom section that never occurs after a visible standard
section — in particular one that textually precedes every visible standard
section — is omitted from `all_sections` entirely. -/
theorem c1_custom_section_placement :
    (∀ (α : Type) (std_content : Str → α) (lines : List Str),
      ((all_visible_sections lines).all fun v =>
          ((custom_sections lines).map Prod.fst).contains v) = true →
      (all_sections std_content lines).map Prod.fst =
        standard_section_names.take 3 ++ (custom_sections lines).map Prod.fst ++
          standard_section_names.drop 3) ∧
    (∀ (α : Type) (std_content : Str → α) (lines : List Str) (c : Str),
      ((all_visible_sections lines).all fun v =>
          ((custom_sections lines).map Prod.fst).contains v) = false →
      (∀ k, k ∈ standard_section_names →
        ¬(c ∈ after_first k (all_visible_sections lines))) →
      ¬(c ∈ standard_section_names) →
      ¬(c ∈ (all_sections std_content lines).map Prod.fst)) := by
  constructor
  · intro α std_content lines hoc
    simp only [all_sections]
    rw [hoc]
    simp only [if_true]
    have hkeys : (standard_section_names.map fun k => (k, std_content k)).map Prod.fst
        = standard_section_names := by
      rw [List.map_map]
      conv_rhs => rw [← List.map_id standard_section_names]
      apply List.map_congr_left
      intro a _
      rfl
    rw [hkeys]
    rw [show standard_section_names.indexOf ("Extended Summary".toList) + 1 = 3 from
      by decide]
    apply List.map_fst_zip
    simp only [List.length_append, List.length_take, List.length_drop,
      List.length_map]
    omega
  · intro α std_content lines c hoc hafter hcstd
    simp only [all_sections]
    rw [hoc]
    simp only [Bool.false_eq_true, if_false]
    apply foldl_keys_not_mem
    · intro kv hkv
      rcases List.mem_map.mp hkv with ⟨k, hk, hkkv⟩
      constructor
      · rw [← hkkv]
        intro hkc
        exact hcstd (hkc ▸ hk)
      · rw [← hkkv]
        exact hafter k hk
    · simp

set_option maxHeartbeats 2000000 in
/-- C1, witness for the amended theorem at concrete inputs. -/
theorem c1_witness :
    ((all_sections (fun _ => ())
        (["A dummy function", "", "Functions", "---------", "foo"].map (·.toList))).map
          Prod.fst =
      standard_section_names.take 3 ++
        (custom_sections
          (["A dummy function", "", "Functions", "---------", "foo"].map (·.toList))).map
            Prod.fst ++
        standard_section_names.drop 3) ∧
    ¬("Functions".toList ∈ (all_sections (fun _ => ())
        (["A dummy function", "", "Functions", "---------", "foo", "",
          "Parameters", "----------", "a"].map (·.toList))).map Prod.fst) :=
  ⟨c1_custom_section_placement.1 Unit (fun _ => ())
      (["A dummy function", "", "Functions", "---------", "foo"].map (·.toList))
      (by decide),
   c1_custom_section_placement.2 Unit (fun _ => ())
      (["A dummy function", "", "Functions", "---------", "foo", "",
        "Parameters", "----------", "a"].map (·.toList))
      "Functions".toList (by decide) (by decide) (by decide)⟩
